import Mathlib

/-!
Shallow embedding of the time-of-day wallpaper selector (src/main.rs and
src/config.rs). Machine floats (f64) are modelled by `ℚ`: every numeric
literal appearing in the source (±360, ±180, ±18, ±12, ±6, −0.25, …) is
exactly representable in f64, and the verified code paths only compare,
add and subtract such values, so rational arithmetic is exact for the
behaviours verified here.
-/

/-- The eight specific light states (enum `Light` in src/main.rs). -/
inductive Light where
  | AstronomicalDawn
  | NauticalDawn
  | CivilDawn
  | Day
  | CivilDusk
  | NauticalDusk
  | AstronomicalDusk
  | Night
deriving DecidableEq

/-- The five generic light states (enum `LightGeneric` in src/main.rs). -/
inductive LightGeneric where
  | Day
  | Night
  | AstronomicalTwilight
  | NauticalTwilight
  | CivilTwilight
deriving DecidableEq

/-- A half-open range `start..stop` (Rust `std::ops::Range<f64>`). -/
structure RangeQ where
  start : ℚ
  stop : ℚ
deriving DecidableEq

/-- Rust `Range::contains`: `start <= x && x < stop`. -/
def RangeQ.containsQ (r : RangeQ) (x : ℚ) : Bool :=
  decide (r.start ≤ x) && decide (x < r.stop)

/-- `LightGeneric::ALL` from src/main.rs, in source order. -/
def LightGeneric.ALL : List LightGeneric :=
  [LightGeneric.Day, LightGeneric.Night, LightGeneric.AstronomicalTwilight,
   LightGeneric.NauticalTwilight, LightGeneric.CivilTwilight]

/-- `LightGeneric::altitude_bounds` from src/main.rs (−0.25 = −1/4). -/
def LightGeneric.altitude_bounds : LightGeneric → List RangeQ
  | LightGeneric.Day => [⟨-(1/4), 0⟩, ⟨0, 360⟩]
  | LightGeneric.AstronomicalTwilight => [⟨-18, -12⟩]
  | LightGeneric.NauticalTwilight => [⟨-12, -6⟩]
  | LightGeneric.CivilTwilight => [⟨-6, -(1/4)⟩]
  | LightGeneric.Night => [⟨-360, -18⟩]

/-- `LightGeneric::to_specific` from src/main.rs. -/
def LightGeneric.to_specific (g : LightGeneric) (azimuth : ℚ) : Light :=
  match g with
  | LightGeneric.Day => Light.Day
  | LightGeneric.Night => Light.Night
  | LightGeneric.AstronomicalTwilight =>
      if azimuth < 180 then Light.AstronomicalDawn else Light.AstronomicalDusk
  | LightGeneric.NauticalTwilight =>
      if azimuth < 180 then Light.NauticalDawn else Light.NauticalDusk
  | LightGeneric.CivilTwilight =>
      if azimuth < 180 then Light.CivilDawn else Light.CivilDusk

/-- The containment test of the classifier loop body:
`light.altitude_bounds().iter().any(|range| range.contains(&elevation))`. -/
def memBounds (g : LightGeneric) (e : ℚ) : Bool :=
  g.altitude_bounds.any (fun r => r.containsQ e)

/-- `impl From<SolarPos> for Light`, parametrised by the elevation
`90 − zenith_angle`. The `for` loop over `LightGeneric::ALL` returning the
first match is `List.find?`; `none` models reaching the final
`unreachable!(...)` panic. -/
def lightFromElevation (elevation azimuth : ℚ) : Option Light :=
  (LightGeneric.ALL.find? (fun g => memBounds g elevation)).map
    (fun g => g.to_specific azimuth)

/-- The same conversion, taking the zenith angle as the source does
(`let elevation = 90_f64 - pos.zenith_angle`). -/
def lightFromPos (zenith_angle azimuth : ℚ) : Option Light :=
  lightFromElevation (90 - zenith_angle) azimuth

/-! Interval characterisation of the declared per-light bounds. -/

lemma mem_ALL (g : LightGeneric) : g ∈ LightGeneric.ALL := by
  cases g <;> simp [LightGeneric.ALL]

lemma memBounds_iff (g : LightGeneric) (e : ℚ) :
    memBounds g e = true ↔
      match g with
      | LightGeneric.Day => -(1/4) ≤ e ∧ e < 360
      | LightGeneric.Night => -360 ≤ e ∧ e < -18
      | LightGeneric.AstronomicalTwilight => -18 ≤ e ∧ e < -12
      | LightGeneric.NauticalTwilight => -12 ≤ e ∧ e < -6
      | LightGeneric.CivilTwilight => -6 ≤ e ∧ e < -(1/4) := by
  cases g
  case Day =>
    simp only [memBounds, LightGeneric.altitude_bounds, List.any_cons, List.any_nil,
      RangeQ.containsQ, Bool.or_false, Bool.or_eq_true, Bool.and_eq_true,
      decide_eq_true_eq]
    constructor
    · rintro (⟨ha, hb⟩ | ⟨ha, hb⟩)
      · exact ⟨ha, by linarith⟩
      · exact ⟨by linarith, hb⟩
    · rintro ⟨ha, hb⟩
      rcases lt_or_le e 0 with h | h
      · exact Or.inl ⟨ha, h⟩
      · exact Or.inr ⟨h, hb⟩
  all_goals
    simp [memBounds, LightGeneric.altitude_bounds, RangeQ.containsQ]

lemma memBounds_unique (e : ℚ) (g1 g2 : LightGeneric)
    (h1 : memBounds g1 e = true) (h2 : memBounds g2 e = true) : g1 = g2 := by
  rw [memBounds_iff] at h1 h2
  cases g1 <;> cases g2 <;>
    first
      | rfl
      | (exfalso
         obtain ⟨a1, b1⟩ := h1
         obtain ⟨a2, b2⟩ := h2
         linarith)

lemma exists_memBounds (e : ℚ) (h1 : -360 ≤ e) (h2 : e < 360) :
    ∃ g, memBounds g e = true := by
  rcases lt_or_le e (-18) with h | h
  · exact ⟨LightGeneric.Night, (memBounds_iff _ _).2 ⟨h1, h⟩⟩
  rcases lt_or_le e (-12) with h3 | h3
  · exact ⟨LightGeneric.AstronomicalTwilight, (memBounds_iff _ _).2 ⟨h, h3⟩⟩
  rcases lt_or_le e (-6) with h4 | h4
  · exact ⟨LightGeneric.NauticalTwilight, (memBounds_iff _ _).2 ⟨h3, h4⟩⟩
  rcases lt_or_le e (-(1/4)) with h5 | h5
  · exact ⟨LightGeneric.CivilTwilight, (memBounds_iff _ _).2 ⟨h4, h5⟩⟩
  · exact ⟨LightGeneric.Day, (memBounds_iff _ _).2 ⟨h5, h2⟩⟩

lemma memBounds_eq_false_of_ge (g : LightGeneric) (e : ℚ) (h : 360 ≤ e) :
    memBounds g e = false := by
  cases hb : memBounds g e
  · rfl
  · exfalso
    have hP := (memBounds_iff g e).1 hb
    cases g <;> (obtain ⟨_, hlt⟩ := hP; linarith)

lemma to_specific_ne_day (g : LightGeneric) (az : ℚ)
    (hg : g ≠ LightGeneric.Day) : g.to_specific az ≠ Light.Day := by
  cases g
  case Day => exact absurd rfl hg
  case Night => simp [LightGeneric.to_specific]
  all_goals
    (rcases lt_or_le az 180 with h | h <;>
      simp [LightGeneric.to_specific, h, not_lt.2])

/-- C1 (amended): on the interval [−360, 360) — which contains every
physically possible elevation `90 − zenith` with zenith in [0, 180] — the
classifier is total: the declared ranges (on the raw, unnormalized
elevation domain) contain the input for exactly one generic light, and
classification returns a light without reaching the `unreachable!` arm. -/
theorem light_classifier_total_on_domain (e az : ℚ)
    (h1 : -360 ≤ e) (h2 : e < 360) :
    (∃ l, lightFromElevation e az = some l) ∧ (∃! g, memBounds g e = true) := by
  obtain ⟨g, hg⟩ := exists_memBounds e h1 h2
  constructor
  · have hs : (LightGeneric.ALL.find? (fun g => memBounds g e)).isSome := by
      rw [List.find?_isSome]
      exact ⟨g, mem_ALL g, hg⟩
    obtain ⟨g', hg'⟩ := Option.isSome_iff_exists.1 hs
    exact ⟨g'.to_specific az, by rw [lightFromElevation, hg']; rfl⟩
  · exact ⟨g, hg, fun g' hg' => memBounds_unique e g' g hg' hg⟩

/-- C1 witness: the totality theorem instantiated at elevation 30,
azimuth 90. -/
theorem light_classifier_total_on_domain_witness :
    ((-360 : ℚ) ≤ 30 ∧ (30 : ℚ) < 360) ∧
    ((∃ l, lightFromElevation 30 90 = some l) ∧ ∃! g, memBounds g 30 = true) :=
  ⟨⟨by norm_num, by norm_num⟩,
   light_classifier_total_on_domain 30 90 (by norm_num) (by norm_num)⟩

/-- C1 counterexample: classification is not total over all real
elevations — at elevation 360 no declared range matches and the
`unreachable!` panic is reached (`none`); and the source performs no
normalization into [0, 360): at elevation −30 it returns `Night`, whose
declared ranges do not contain the normalized value 330 (which lies in
`Day`'s declared range instead). -/
theorem light_classifier_not_total :
    lightFromElevation 360 90 = none ∧
    lightFromElevation (-30) 90 = some Light.Night ∧
    memBounds LightGeneric.Night (-30 + 360) = false ∧
    memBounds LightGeneric.Day (-30 + 360) = true := by
  refine ⟨?_, ?_, ?_, ?_⟩ <;>
    norm_num [lightFromElevation, LightGeneric.ALL, List.find?, memBounds,
      LightGeneric.altitude_bounds, RangeQ.containsQ, LightGeneric.to_specific]

/-- C2 (amended): the source applies no modulo-360 reduction to the
elevation, so classification is not invariant under ±360 shifts: for
every x in [0, 360), classifying x + 360 reaches the `unreachable!` arm,
classifying x yields `Day`, and (for x below 359.75) classifying x − 360
yields a light other than `Day`. -/
theorem light_classifier_no_modular_reduction (x az : ℚ)
    (h0 : 0 ≤ x) (h1 : x < 360) :
    lightFromElevation (x + 360) az = none ∧
    lightFromElevation x az = some Light.Day ∧
    (x < 360 - 1/4 →
      lightFromElevation (x - 360) az ≠ none ∧
      lightFromElevation (x - 360) az ≠ some Light.Day) := by
  refine ⟨?_, ?_, ?_⟩
  · have hnone : LightGeneric.ALL.find? (fun g => memBounds g (x + 360)) = none := by
      rw [List.find?_eq_none]
      intro g _
      simp [memBounds_eq_false_of_ge g (x + 360) (by linarith)]
    rw [lightFromElevation, hnone]
    rfl
  · have hD : memBounds LightGeneric.Day x = true :=
      (memBounds_iff _ _).2 ⟨by linarith, h1⟩
    have hfind : LightGeneric.ALL.find? (fun g => memBounds g x)
        = some LightGeneric.Day := by
      rw [LightGeneric.ALL]
      exact List.find?_cons_of_pos _ hD
    rw [lightFromElevation, hfind]
    rfl
  · intro hx
    obtain ⟨g, hg⟩ := exists_memBounds (x - 360) (by linarith) (by linarith)
    have hs : (LightGeneric.ALL.find? (fun g => memBounds g (x - 360))).isSome := by
      rw [List.find?_isSome]
      exact ⟨g, mem_ALL g, hg⟩
    obtain ⟨g', hg'⟩ := Option.isSome_iff_exists.1 hs
    have hpg' : memBounds g' (x - 360) = true := by
      have := List.find?_some hg'
      simpa using this
    have hne : g' ≠ LightGeneric.Day := by
      intro hEq
      subst hEq
      obtain ⟨ha, _⟩ := (memBounds_iff _ _).1 hpg'
      linarith
    constructor
    · rw [lightFromElevation, hg']
      simp
    · rw [lightFromElevation, hg']
      simp [to_specific_ne_day g' az hne]

/-- C2 witness: the no-reduction theorem instantiated at x = 30,
azimuth 90. -/
theorem light_classifier_no_modular_reduction_witness :
    ((0 : ℚ) ≤ 30 ∧ (30 : ℚ) < 360) ∧
    lightFromElevation (30 + 360) 90 = none ∧
    lightFromElevation 30 90 = some Light.Day ∧
    (lightFromElevation (30 - 360) 90 ≠ none ∧
      lightFromElevation (30 - 360) 90 ≠ some Light.Day) :=
  ⟨⟨by norm_num, by norm_num⟩,
   (light_classifier_no_modular_reduction 30 90 (by norm_num) (by norm_num)).1,
   (light_classifier_no_modular_reduction 30 90 (by norm_num) (by norm_num)).2.1,
   (light_classifier_no_modular_reduction 30 90 (by norm_num) (by norm_num)).2.2
     (by norm_num)⟩

/-- C2 counterexample: circular consistency fails at x = 30 with azimuth
held at 90 — classify(30) = Day, classify(30 − 360) = Night, and
classify(30 + 360) reaches the `unreachable!` arm. -/
theorem light_classifier_circular_counterexample :
    lightFromElevation 30 90 = some Light.Day ∧
    lightFromElevation (30 - 360) 90 = some Light.Night ∧
    lightFromElevation (30 + 360) 90 = none := by
  refine ⟨?_, ?_, ?_⟩ <;>
    norm_num [lightFromElevation, LightGeneric.ALL, List.find?, memBounds,
      LightGeneric.altitude_bounds, RangeQ.containsQ, LightGeneric.to_specific]

/-- C3 (amended): the night/astronomical-dawn seam lies at elevation −18
on the raw elevation domain (not at 90 − (360 − 18) = −252): for a
morning azimuth (< 180), classify(−18) = AstronomicalDawn — the declared
ranges being half-open [low, high) — and every elevation below −18 down
to −360, in particular one f64 ulp below (−18 − 2⁻⁴⁸), classifies as
Night. -/
theorem light_classifier_seam_at_neg18 (az : ℚ) (haz : az < 180) :
    lightFromElevation (-18) az = some Light.AstronomicalDawn ∧
    lightFromElevation (-18 - 1 / 2 ^ 48) az = some Light.Night ∧
    ∀ e : ℚ, -360 ≤ e → e < -18 → lightFromElevation e az = some Light.Night := by
  have hgen : ∀ e : ℚ, -360 ≤ e → e < -18 →
      lightFromElevation e az = some Light.Night := by
    intro e he1 he2
    have hD : memBounds LightGeneric.Day e = false := by
      cases hb : memBounds LightGeneric.Day e
      · rfl
      · obtain ⟨ha, _⟩ := (memBounds_iff _ _).1 hb
        exfalso
        linarith
    have hN : memBounds LightGeneric.Night e = true :=
      (memBounds_iff _ _).2 ⟨he1, he2⟩
    have hfind : LightGeneric.ALL.find? (fun g => memBounds g e)
        = some LightGeneric.Night := by
      rw [LightGeneric.ALL]
      rw [List.find?_cons_of_neg _ (by simp [hD])]
      exact List.find?_cons_of_pos _ hN
    rw [lightFromElevation, hfind]
    rfl
  refine ⟨?_, hgen _ (by norm_num) (by norm_num), hgen⟩
  norm_num [lightFromElevation, LightGeneric.ALL, List.find?, memBounds,
    LightGeneric.altitude_bounds, RangeQ.containsQ, LightGeneric.to_specific, haz]

/-- C3 witness: the seam theorem instantiated at azimuth 90. -/
theorem light_classifier_seam_at_neg18_witness :
    ((90 : ℚ) < 180) ∧
    lightFromElevation (-18) 90 = some Light.AstronomicalDawn ∧
    lightFromElevation (-18 - 1 / 2 ^ 48) 90 = some Light.Night :=
  ⟨by norm_num, (light_classifier_seam_at_neg18 90 (by norm_num)).1,
   (light_classifier_seam_at_neg18 90 (by norm_num)).2.1⟩

/-- C3 counterexample: classifying the elevation 90 − (360 − 18) = −252
(morning azimuth 90) yields Night, not AstronomicalDawn. -/
theorem light_classifier_seam_claim_false :
    lightFromElevation (90 - (360 - 18)) 90 = some Light.Night ∧
    Light.Night ≠ Light.AstronomicalDawn := by
  constructor
  · norm_num [lightFromElevation, LightGeneric.ALL, List.find?, memBounds,
      LightGeneric.altitude_bounds, RangeQ.containsQ, LightGeneric.to_specific]
  · simp

/-! The configuration data model (src/config.rs) and the wallpaper
selection in `main` (src/main.rs). -/

/-- enum `During` from src/config.rs. -/
inductive During where
  | Lights (lights : List Light)
  | Elevation (rising setting : List RangeQ)
  | LightsAndElevation (lights : List Light) (rising setting : List RangeQ)
  | Any
deriving DecidableEq

/-- `During::is_any` from src/config.rs. -/
def During.is_any : During → Bool
  | During.Any => true
  | _ => false

/-- struct `Wallpaper` from src/config.rs (the path as a string). -/
structure Wallpaper where
  during : During
  path : String
deriving DecidableEq

/-- The per-wallpaper match closure of the first `find` in `main`
(src/main.rs lines 37–47): `Lights` is a membership test, the elevation
halves are guarded by `azimuth < 180.0` and `azimuth > 180.0`, and
`During::Any => false`. -/
def duringSatisfied (d : During) (light : Light) (elevation azimuth : ℚ) : Bool :=
  match d with
  | During.Lights lights => lights.any (fun l => l == light)
  | During.Elevation rising setting =>
      (decide (azimuth < 180) && rising.any (fun r => r.containsQ elevation))
      || (decide (azimuth > 180) && setting.any (fun r => r.containsQ elevation))
  | During.LightsAndElevation lights rising setting =>
      lights.any (fun l => l == light)
      || (decide (azimuth < 180) && rising.any (fun r => r.containsQ elevation))
      || (decide (azimuth > 180) && setting.any (fun r => r.containsQ elevation))
  | During.Any => false

/-- The wallpaper selection in `main`:
`wallpapers.iter().find(..).or_else(|| wallpapers.iter().find(is_any))`. -/
def selectWallpaper (wps : List Wallpaper) (light : Light)
    (elevation azimuth : ℚ) : Option Wallpaper :=
  match wps.find? (fun wp => duringSatisfied wp.during light elevation azimuth) with
  | some wp => some wp
  | none => wps.find? (fun wp => wp.during.is_any)

/-- The selection step of `main` with its `.context("no configured
wallpaper")?` error. -/
def selectOrError (wps : List Wallpaper) (light : Light)
    (elevation azimuth : ℚ) : Except String Wallpaper :=
  match selectWallpaper wps light elevation azimuth with
  | some wp => Except.ok wp
  | none => Except.error "no configured wallpaper"

/-- C4: fallback precedence — the selector returns the first entry whose
specific condition is satisfied (the first-pass `find?`); an `Any` entry
is returned only when no entry's specific condition matched (whatever its
position); and in particular [A: Any, B: Lights([Day])] under light Day
selects B, not A. -/
theorem select_fallback_precedence :
    (∀ (wps : List Wallpaper) (light : Light) (e az : ℚ) (wp : Wallpaper),
      wps.find? (fun w => duringSatisfied w.during light e az) = some wp →
      selectWallpaper wps light e az = some wp)
    ∧ (∀ (wps : List Wallpaper) (light : Light) (e az : ℚ),
      wps.find? (fun w => duringSatisfied w.during light e az) = none →
      selectWallpaper wps light e az = wps.find? (fun w => w.during.is_any))
    ∧ (∀ (wps : List Wallpaper) (light : Light) (e az : ℚ) (wp : Wallpaper),
      selectWallpaper wps light e az = some wp → wp.during.is_any = true →
      ∀ w ∈ wps, duringSatisfied w.during light e az = false)
    ∧ selectWallpaper
        [⟨During.Any, "A"⟩, ⟨During.Lights [Light.Day], "B"⟩] Light.Day 10 90
        = some ⟨During.Lights [Light.Day], "B"⟩ := by
  refine ⟨?_, ?_, ?_, ?_⟩
  · intro wps light e az wp h
    rw [selectWallpaper, h]
  · intro wps light e az h
    rw [selectWallpaper, h]
  · intro wps light e az wp hsel hany w hw
    cases hfind : wps.find? (fun w => duringSatisfied w.during light e az) with
    | some w1 =>
        rw [selectWallpaper, hfind] at hsel
        have hw1 : w1 = wp := by
          simpa using hsel
        subst hw1
        have hsat := List.find?_some hfind
        have hAny : w1.during = During.Any := by
          cases hd : w1.during <;> simp [During.is_any, hd] at hany ⊢
        rw [hAny] at hsat
        simp [duringSatisfied] at hsat
    | none =>
        have := List.find?_eq_none.1 hfind w hw
        simpa using this
  · simp [selectWallpaper, List.find?, duringSatisfied, During.is_any]

/-- C4 witness: the first-pass conjunct applied to the one-entry list
[B: Lights([Day])] under light Day. -/
theorem select_fallback_precedence_witness :
    selectWallpaper [⟨During.Lights [Light.Day], "B"⟩] Light.Day 10 90
      = some ⟨During.Lights [Light.Day], "B"⟩ :=
  select_fallback_precedence.1 [⟨During.Lights [Light.Day], "B"⟩]
    Light.Day 10 90 ⟨During.Lights [Light.Day], "B"⟩
    (by simp [List.find?, duringSatisfied])

/-- C5: when no entry's During condition is satisfied and no entry is
`Any`, selection fails with the distinct "no configured wallpaper" error
instead of returning an entry. -/
theorem select_no_match_error (wps : List Wallpaper) (light : Light) (e az : ℚ)
    (hsat : ∀ w ∈ wps, duringSatisfied w.during light e az = false)
    (hany : ∀ w ∈ wps, w.during.is_any = false) :
    selectOrError wps light e az = Except.error "no configured wallpaper" := by
  have h1 : wps.find? (fun w => duringSatisfied w.during light e az) = none := by
    rw [List.find?_eq_none]
    intro w hw
    simp [hsat w hw]
  have h2 : wps.find? (fun w => w.during.is_any) = none := by
    rw [List.find?_eq_none]
    intro w hw
    simp [hany w hw]
  rw [selectOrError, selectWallpaper, h1, h2]

/-- C5 witness: the no-match theorem applied to [B: Lights([Night])]
under light Day. -/
theorem select_no_match_error_witness :
    selectOrError [⟨During.Lights [Light.Night], "B"⟩] Light.Day 10 90
      = Except.error "no configured wallpaper" :=
  select_no_match_error [⟨During.Lights [Light.Night], "B"⟩] Light.Day 10 90
    (by intro w hw; simp at hw; subst hw; simp [duringSatisfied])
    (by intro w hw; simp at hw; subst hw; simp [During.is_any])

/-- C6 (amended): the rising list is tested when azimuth < 180 and the
setting list when azimuth > 180 strictly; at azimuth exactly 180 neither
list is tested — an `Elevation` condition is then never satisfied, and a
`LightsAndElevation` condition degenerates to its light-set test. -/
theorem azimuth_half_selection (rising setting : List RangeQ)
    (lights : List Light) (light : Light) (e az : ℚ) :
    (az < 180 →
      duringSatisfied (During.Elevation rising setting) light e az
        = rising.any (fun r => r.containsQ e))
    ∧ (180 < az →
      duringSatisfied (During.Elevation rising setting) light e az
        = setting.any (fun r => r.containsQ e))
    ∧ (az = 180 →
      duringSatisfied (During.Elevation rising setting) light e az = false
      ∧ duringSatisfied (During.LightsAndElevation lights rising setting) light e az
        = lights.any (fun l => l == light)) := by
  refine ⟨?_, ?_, ?_⟩
  · intro h
    have t1 : decide (az < 180) = true := by simp [h]
    have t2 : decide (az > 180) = false := by
      simp only [gt_iff_lt, decide_eq_false_iff_not, not_lt]
      linarith
    simp [duringSatisfied, t1, t2]
  · intro h
    have t1 : decide (az < 180) = false := by
      simp only [decide_eq_false_iff_not, not_lt]
      linarith
    have t2 : decide (az > 180) = true := by simp [h]
    simp [duringSatisfied, t1, t2]
  · intro h
    subst h
    have t1 : decide ((180 : ℚ) < 180) = false := by simp
    have t2 : decide ((180 : ℚ) > 180) = false := by simp
    constructor <;> simp [duringSatisfied, t1, t2]

/-- C6 witness: the setting list is the one tested at azimuth 190. -/
theorem azimuth_half_selection_witness :
    duringSatisfied (During.Elevation [] [⟨0, 10⟩]) Light.Day 5 190
      = List.any [(⟨0, 10⟩ : RangeQ)] (fun r => r.containsQ 5) :=
  (azimuth_half_selection [] [⟨0, 10⟩] [] Light.Day 5 190).2.1 (by norm_num)

/-- C6 counterexample: at azimuth exactly 180 the setting list is not
tested — the elevation 5 lies in the setting range [0, 10) yet the
`Elevation` condition evaluates to false, because the source guards the
setting test with `pos.azimuth > 180.0`, not `>= 180`. -/
theorem azimuth_180_neither_half :
    duringSatisfied (During.Elevation [] [⟨0, 10⟩]) Light.Day 5 180 = false ∧
    RangeQ.containsQ ⟨0, 10⟩ 5 = true := by
  constructor
  · simp [duringSatisfied]
  · norm_num [RangeQ.containsQ]

/-! The `During` sequence parser `DuringVisitor::visit_seq`
(src/config.rs lines 71–177). -/

/-- Truncation toward zero on rationals, matching how Rust's f64 `%`
operator rounds the quotient. -/
def ratTrunc (q : ℚ) : ℤ :=
  if 0 ≤ q then ⌊q⌋ else ⌈q⌉

/-- Rust `f % 360.0`: the remainder of truncating division, keeping the
sign of `f`, with |result| < 360. -/
def fmod360 (f : ℚ) : ℚ :=
  f - 360 * (ratTrunc (f / 360) : ℚ)

/-- Rust `f64::signum` on finite values: 1 for positive and +0, −1 for
negative (−0.0 has no counterpart in ℚ). -/
def signumR (q : ℚ) : ℚ :=
  if q < 0 then -1 else 1

lemma fmod360_eq_self (f : ℚ) (h1 : -360 < f) (h2 : f < 360) :
    fmod360 f = f := by
  have h360 : (0 : ℚ) < 360 := by norm_num
  rcases le_or_lt 0 f with hf | hf
  · have hq : (0 : ℚ) ≤ f / 360 := div_nonneg hf (le_of_lt h360)
    have hfl : ⌊f / 360⌋ = 0 := by
      rw [Int.floor_eq_zero_iff, Set.mem_Ico]
      refine ⟨hq, ?_⟩
      rw [div_lt_one h360]
      exact h2
    rw [fmod360, ratTrunc, if_pos hq, hfl]
    push_cast
    ring
  · have hq : f / 360 < 0 := div_neg_of_neg_of_pos hf h360
    have hcl : ⌈f / 360⌉ = 0 := by
      rw [Int.ceil_eq_zero_iff, Set.mem_Ioc]
      refine ⟨?_, le_of_lt hq⟩
      rw [lt_div_iff₀ h360]
      linarith
    rw [fmod360, ratTrunc, if_neg (not_le.2 hq), hcl]
    push_cast
    ring

/-- The untagged token type of `visit_seq`: each sequence element is a
number or a light name (enum `F64OrLight` in src/config.rs). -/
inductive F64OrLight where
  | F64 (f : ℚ)
  | LightName (l : Light)
deriving DecidableEq

/-- The loop-carried state of `visit_seq`: the collected lights `vec`,
the two range lists, and the buffered first element `p1` of a pending
numeric pair. -/
structure FoldState where
  vec : List Light
  rising_ranges : List RangeQ
  setting_ranges : List RangeQ
  p1 : Option ℚ
deriving DecidableEq

/-- One iteration of the `while let Some(entry) = seq.next_element()`
loop of `visit_seq` (src/config.rs lines 88–157), including the sign
check, the re-centering — where, on the setting half, the source adds
360 to `first` under the `second < -180.0` test — and the seam split. -/
def stepEntry (st : FoldState) (entry : F64OrLight) : FoldState :=
  match entry with
  | F64OrLight.LightName l => { st with vec := st.vec ++ [l] }
  | F64OrLight.F64 f =>
    match st.p1 with
    | none => { st with p1 := some (fmod360 f) }
    | some first0 =>
      let st1 : FoldState := { st with p1 := none }
      let second0 := fmod360 f
      if signumR first0 ≠ signumR second0 then st1
      else
        let rising := signumR first0 = 1
        let fs : ℚ × ℚ :=
          if rising then
            (if first0 > 180 then first0 - 360 else first0,
             if second0 > 180 then second0 - 360 else second0)
          else
            (let f1 := if first0 < -180 then first0 + 360 else first0
             if second0 < -180 then f1 + 360 else f1,
             second0)
        let newRanges : List RangeQ :=
          if fs.1 > fs.2 then
            (if fs.1 ≠ 360 then [⟨0, fs.1⟩] else [])
              ++ (if fs.2 ≠ 0 then [⟨fs.2, 0⟩] else [])
          else
            [⟨fs.1, fs.2⟩]
        if rising then
          { st1 with rising_ranges := st1.rising_ranges ++ newRanges }
        else
          { st1 with setting_ranges := st1.setting_ranges ++ newRanges }

/-- The whole `visit_seq` loop over a token sequence, starting from empty
collections and an empty pair buffer. -/
def processTokens (ts : List F64OrLight) : FoldState :=
  ts.foldl stepEntry ⟨[], [], [], none⟩

/-- The variant choice at the end of `visit_seq` (src/config.rs lines
159–176). Note the source computes `has_elevations` from
`rising_ranges` alone. -/
def finishDuring (st : FoldState) : During :=
  let has_lights := !st.vec.isEmpty
  let has_elevations := !st.rising_ranges.isEmpty
  if has_lights && has_elevations then
    During.LightsAndElevation st.vec st.rising_ranges st.setting_ranges
  else if has_lights then
    During.Lights st.vec
  else if has_elevations then
    During.Elevation st.rising_ranges st.setting_ranges
  else
    During.Lights st.vec

/-- `DuringVisitor::visit_seq` on an already-deserialised token list. -/
def visit_seq (ts : List F64OrLight) : During :=
  finishDuring (processTokens ts)

/-- The number of numeric tokens in a sequence. -/
def countNums : List F64OrLight → Nat
  | [] => 0
  | F64OrLight.F64 _ :: ts => countNums ts + 1
  | F64OrLight.LightName _ :: ts => countNums ts

lemma processTokens_rising_pair :
    processTokens [F64OrLight.F64 340, F64OrLight.F64 15]
      = ⟨[], [⟨-20, 15⟩], [], none⟩ := by
  norm_num [processTokens, List.foldl_cons, List.foldl_nil, stepEntry, signumR,
    fmod360_eq_self 340 (by norm_num) (by norm_num),
    fmod360_eq_self 15 (by norm_num) (by norm_num)]

lemma processTokens_setting_pair :
    processTokens [F64OrLight.F64 (-345), F64OrLight.F64 (-20)]
      = ⟨[], [], [⟨0, 15⟩, ⟨-20, 0⟩], none⟩ := by
  norm_num [processTokens, List.foldl_cons, List.foldl_nil, stepEntry, signumR,
    fmod360_eq_self (-345) (by norm_num) (by norm_num),
    fmod360_eq_self (-20) (by norm_num) (by norm_num)]

lemma processTokens_setting_second_low :
    processTokens [F64OrLight.F64 (-20), F64OrLight.F64 (-345)]
      = ⟨[], [], [⟨0, 340⟩, ⟨-345, 0⟩], none⟩ := by
  norm_num [processTokens, List.foldl_cons, List.foldl_nil, stepEntry, signumR,
    fmod360_eq_self (-345) (by norm_num) (by norm_num),
    fmod360_eq_self (-20) (by norm_num) (by norm_num)]

/-- C7: evaluation of the fold at the failing input — for the setting
pair (−20, −345), whose second reduced value −345 is below −180, the
source adds 360 to `first` (not to `second`), leaving first = 340 > 180
and second = −345, so the seam split emits [0, 340) and [−345, 0) instead
of re-centering second to 15 and emitting [−20, 15). -/
theorem setting_recenter_shifts_first :
    (processTokens [F64OrLight.F64 (-20), F64OrLight.F64 (-345)]).setting_ranges
      = [⟨0, 340⟩, ⟨-345, 0⟩] ∧
    (processTokens [F64OrLight.F64 (-20), F64OrLight.F64 (-345)]).rising_ranges
      = [] := by
  rw [processTokens_setting_second_low]
  exact ⟨rfl, rfl⟩

/-- C8: evaluation at the failing input — the sequence [−345, −20]
produces only setting ranges, and because `has_elevations` is computed
from `rising_ranges` alone, `visit_seq` returns `Lights []` (a
never-matching condition), silently discarding the setting ranges it
just built. -/
theorem variant_choice_drops_setting :
    visit_seq [F64OrLight.F64 (-345), F64OrLight.F64 (-20)]
      = During.Lights [] ∧
    (processTokens [F64OrLight.F64 (-345), F64OrLight.F64 (-20)]).setting_ranges
      = [⟨0, 15⟩, ⟨-20, 0⟩] := by
  constructor
  · rw [visit_seq, processTokens_setting_pair]
    rfl
  · rw [processTokens_setting_pair]

/-- C9: range-folding round trip — folding the pair (340, 15) produces
rising ranges whose union over elevations is exactly [−20, 15) (with no
gap at 0), and folding (−345, −20) produces setting ranges with the same
union on the setting side. -/
theorem range_folding_round_trip (x : ℚ) :
    ((processTokens [F64OrLight.F64 340, F64OrLight.F64 15]).rising_ranges.any
        (fun r => r.containsQ x) = true ↔ -20 ≤ x ∧ x < 15) ∧
    ((processTokens [F64OrLight.F64 (-345), F64OrLight.F64 (-20)]).setting_ranges.any
        (fun r => r.containsQ x) = true ↔ -20 ≤ x ∧ x < 15) := by
  rw [processTokens_rising_pair, processTokens_setting_pair]
  constructor
  · simp [RangeQ.containsQ, decide_eq_true_eq]
  · simp only [List.any_cons, List.any_nil, RangeQ.containsQ, Bool.or_false,
      Bool.or_eq_true, Bool.and_eq_true, decide_eq_true_eq]
    constructor
    · rintro (⟨ha, hb⟩ | ⟨ha, hb⟩)
      · exact ⟨by linarith, hb⟩
      · exact ⟨ha, by linarith⟩
    · rintro ⟨ha, hb⟩
      rcases le_or_lt 0 x with h | h
      · exact Or.inl ⟨h, hb⟩
      · exact Or.inr ⟨ha, h⟩

lemma p1_toggle (st : FoldState) (f : ℚ) :
    (stepEntry st (F64OrLight.F64 f)).p1.isSome = !st.p1.isSome := by
  obtain ⟨v, r, s, p⟩ := st
  cases p
  · rfl
  · simp only [stepEntry]
    split
    · rfl
    · split <;> rfl

lemma p1_parity (ts : List F64OrLight) : ∀ st : FoldState,
    (ts.foldl stepEntry st).p1.isSome
      = (st.p1.isSome).xor (decide (countNums ts % 2 = 1)) := by
  induction ts with
  | nil =>
      intro st
      simp [countNums]
  | cons t ts ih =>
      intro st
      cases t with
      | LightName l =>
          rw [List.foldl_cons, ih]
          have h1 : (stepEntry st (F64OrLight.LightName l)).p1 = st.p1 := rfl
          rw [h1]
          rfl
      | F64 f =>
          rw [List.foldl_cons, ih, p1_toggle]
          have hc : countNums (F64OrLight.F64 f :: ts) = countNums ts + 1 := rfl
          rw [hc]
          rcases Nat.mod_two_eq_zero_or_one (countNums ts) with h | h
          · have h1 : (countNums ts + 1) % 2 = 1 := by omega
            rw [h, h1]
            cases hb : st.p1.isSome <;> rfl
          · have h1 : (countNums ts + 1) % 2 = 0 := by omega
            rw [h, h1]
            cases hb : st.p1.isSome <;> rfl

lemma processTokens_p1_isSome (ts : List F64OrLight) :
    (processTokens ts).p1.isSome = decide (countNums ts % 2 = 1) := by
  have hp := p1_parity ts ⟨[], [], [], none⟩
  simpa [processTokens] using hp

lemma processTokens_p1_none (ts : List F64OrLight)
    (h : countNums ts % 2 = 0) : (processTokens ts).p1 = none := by
  have hs := processTokens_p1_isSome ts
  have hd : decide (countNums ts % 2 = 1) = false := by
    simp only [decide_eq_false_iff_not]
    omega
  rw [hd] at hs
  exact Option.not_isSome_iff_eq_none.1 (by simp [hs])

/-- C10: a trailing unpaired numeric token (an odd total number count) is
silently discarded — it only lands in the `p1` buffer, so the collected
lights and both range lists are unchanged and the resulting `During`
variant is the same as without it; no error is raised. -/
theorem trailing_number_discarded (ts : List F64OrLight) (f : ℚ)
    (h : countNums ts % 2 = 0) :
    (processTokens (ts ++ [F64OrLight.F64 f])).vec = (processTokens ts).vec ∧
    (processTokens (ts ++ [F64OrLight.F64 f])).rising_ranges
      = (processTokens ts).rising_ranges ∧
    (processTokens (ts ++ [F64OrLight.F64 f])).setting_ranges
      = (processTokens ts).setting_ranges ∧
    visit_seq (ts ++ [F64OrLight.F64 f]) = visit_seq ts := by
  have hp1 : (processTokens ts).p1 = none := processTokens_p1_none ts h
  have happ : processTokens (ts ++ [F64OrLight.F64 f])
      = stepEntry (processTokens ts) (F64OrLight.F64 f) := by
    simp [processTokens, List.foldl_append]
  cases hE : processTokens ts with
  | mk v r s p =>
    have hpn : p = none := by
      rw [hE] at hp1
      exact hp1
    subst hpn
    rw [hE] at happ
    have hstep : stepEntry ⟨v, r, s, none⟩ (F64OrLight.F64 f)
        = ⟨v, r, s, some (fmod360 f)⟩ := rfl
    rw [hstep] at happ
    refine ⟨?_, ?_, ?_, ?_⟩
    · rw [happ]
    · rw [happ]
    · rw [happ]
    · rw [visit_seq, visit_seq, happ, hE]
      rfl

/-- C10 witness: the sequence [10, "day", 20] has an even number count,
and appending the trailing 30 does not change the parsed condition. -/
theorem trailing_number_discarded_witness :
    countNums [F64OrLight.F64 10, F64OrLight.LightName Light.Day,
        F64OrLight.F64 20] % 2 = 0 ∧
    visit_seq [F64OrLight.F64 10, F64OrLight.LightName Light.Day,
        F64OrLight.F64 20, F64OrLight.F64 30]
      = visit_seq [F64OrLight.F64 10, F64OrLight.LightName Light.Day,
        F64OrLight.F64 20] :=
  ⟨by decide,
   (trailing_number_discarded
      [F64OrLight.F64 10, F64OrLight.LightName Light.Day, F64OrLight.F64 20]
      30 (by decide)).2.2.2⟩
